import Mathlib

/-!
Verification of the geoinfo statistics-ingestion pipeline.

This file shallowly embeds the ingestion pipeline of the repository —
the StatFin transport client (`backend/services/statfin.py`), the
JSON-stat cube decoder, the dimension normalizer and the fetch
orchestrator (`backend/services/fetcher.py`) — as executable Lean
definitions, and proves or refutes the specification's claims about it.

Conventions of the embedding:
* Python `int` becomes `Nat`/`Int`; numeric cell values (Python `float`)
  are abstracted as `Option ℚ` (no claim depends on float rounding).
* Python functions that may raise become `Option`/`Except`-valued
  functions; a `none`/`.error` result marks the raised exception.
* Python dicts used as string-keyed maps become association lists with
  insert-or-overwrite semantics (`insertAssoc`), preserving key order of
  first insertion, like CPython dicts.
* Timestamps are modelled as integer seconds; `timedelta(hours=h)`
  becomes `h * 3600` seconds.
-/

namespace GeoInfo

/-! ## Basic helpers: products, association lists -/

/-- Product of a list of naturals (`math.prod` / the repeated
`divisor *= s` accumulation in `_index_to_coordinates`). -/
def listProd (l : List Nat) : Nat := l.foldl (· * ·) 1

/-- Index of the first occurrence of `x` in `l` (Python `list.index`,
total: returns `l.length` when absent, which never happens at call
sites below). -/
def firstIndexOf : List Nat → Nat → Nat
  | [], _ => 0
  | a :: l, x => if a = x then 0 else firstIndexOf l x + 1

/-- Insert-or-overwrite on an association list, mirroring CPython dict
assignment `d[k] = v`: an existing key keeps its position and gets the
new value, a new key is appended. -/
def insertAssoc (l : List (String × String)) (k v : String) :
    List (String × String) :=
  match l with
  | [] => [(k, v)]
  | (k', v') :: rest =>
      if k' = k then (k, v) :: rest else (k', v') :: insertAssoc rest k v

/-- Lookup in an association list (Python `d.get(k)` / `k in d`). -/
def lookupAssoc (l : List (String × String)) (k : String) : Option String :=
  match l with
  | [] => none
  | (k', v') :: rest => if k' = k then some v' else lookupAssoc rest k

/-- The keys of an association list, in order. -/
def assocKeys (l : List (String × String)) : List String := l.map (·.1)

/-! ## Cube decoder data model (`backend/services/statfin.py`) -/

/-- Source `StatFinCategory`: one value along a dimension axis. -/
structure StatFinCategory where
  index : Nat
  code : String
  label : String
  deriving Repr, DecidableEq

/-- Source `StatFinParsedDimension`: a parsed dimension of a JSON-stat cube. -/
structure StatFinParsedDimension where
  id : String
  label : String
  categories : List StatFinCategory
  deriving Repr, DecidableEq

/-- Source `StatFinParsedDimension.get_category_by_index`: guarded positional
lookup, `None` when the index is out of range. -/
def getCategoryByIndex (dim : StatFinParsedDimension) (index : Nat) :
    Option StatFinCategory :=
  if h : index < dim.categories.length then
    some (dim.categories.get ⟨index, h⟩)
  else
    none

/-- Source `StatFinDataPoint`: one cell of a dataset with its resolved
coordinate and label maps. -/
structure StatFinDataPoint where
  value : Option ℚ
  coordinates : List (String × String)
  labels : List (String × String)
  deriving Repr, DecidableEq

/-- Source `StatFinDataset`: a parsed JSON-stat dataset. -/
structure StatFinDataset where
  label : String
  source : Option String
  updated : Option String
  dimensions : List StatFinParsedDimension
  values : List (Option ℚ)
  sizes : List Nat
  dimensionIds : List String
  deriving Repr, DecidableEq

/-- Body of `StatFinDataset._index_to_coordinates`, faithful to the
source: for each entry `size` of `sizes` the divisor is the product of
the sizes *after the first occurrence of the value `size`*
(`self._sizes[self._sizes.index(size) + 1:]`), and the flat index is
divided and reduced by it.  A zero divisor (Python `ZeroDivisionError`)
yields `none`. -/
def indexToCoordsGo (all : List Nat) : List Nat → Nat → Option (List Nat)
  | [], _ => some []
  | size :: rest, remaining =>
      let divisor := listProd (all.drop (firstIndexOf all size + 1))
      if divisor = 0 then none
      else
        match indexToCoordsGo all rest (remaining % divisor) with
        | none => none
        | some tail => some (remaining / divisor :: tail)

/-- Source `StatFinDataset._index_to_coordinates`: convert a flat array index
to per-dimension coordinates. -/
def indexToCoordinates (sizes : List Nat) (flatIndex : Nat) :
    Option (List Nat) :=
  indexToCoordsGo sizes sizes flatIndex

/-- The specification's mixed-radix decoding formula: coordinate `k` at
flat index `i` is `(i / product(sizes after k)) % sizes[k]`. -/
def specCoordinate (sizes : List Nat) (flatIndex k : Nat) : Nat :=
  (flatIndex / listProd (sizes.drop (k + 1))) % sizes.getD k 0

/-- The mixed-radix encoding of a coordinate tuple (the inverse the
specification demands of the decoder). -/
def mixedRadixEncode (sizes coords : List Nat) : Nat :=
  match sizes, coords with
  | _ :: srest, c :: crest =>
      c * listProd srest + mixedRadixEncode srest crest
  | _, _ => 0

/-- Building the coordinate and label dicts of one data point
(`get_data_points` inner loop): for each dimension at position `j`,
read `coords[j]` (Python raises `IndexError` when absent → `none`),
look the category up by index, and when found store code and label
under the dimension id. -/
def buildPointMaps (coords : List Nat) :
    List StatFinParsedDimension → Nat → List (String × String) →
    List (String × String) →
    Option (List (String × String) × List (String × String))
  | [], _, cs, ls => some (cs, ls)
  | dim :: rest, j, cs, ls =>
      match coords.get? j with
      | none => none
      | some catIdx =>
          match getCategoryByIndex dim catIdx with
          | none => buildPointMaps coords rest (j + 1) cs ls
          | some cat =>
              buildPointMaps coords rest (j + 1)
                (insertAssoc cs dim.id cat.code)
                (insertAssoc ls dim.id cat.label)

/-- One data point of `get_data_points` at flat index `i`. -/
def dataPointAt (d : StatFinDataset) (i : Nat) (v : Option ℚ) :
    Option StatFinDataPoint :=
  match indexToCoordinates d.sizes i with
  | none => none
  | some coords =>
      match buildPointMaps coords d.dimensions 0 [] [] with
      | none => none
      | some (cs, ls) => some ⟨v, cs, ls⟩

/-- Loop of `get_data_points` over `enumerate(self.values)`. -/
def dataPointsGo (d : StatFinDataset) :
    List (Option ℚ) → Nat → Option (List StatFinDataPoint)
  | [], _ => some []
  | v :: rest, i =>
      match dataPointAt d i v with
      | none => none
      | some p =>
          match dataPointsGo d rest (i + 1) with
          | none => none
          | some ps => some (p :: ps)

/-- Source `StatFinDataset.get_data_points`: all data points with coordinates
and labels; `none` when the Python code would raise
(`ZeroDivisionError` from a zero divisor, `IndexError` from a missing
coordinate). -/
def getDataPoints (d : StatFinDataset) : Option (List StatFinDataPoint) :=
  dataPointsGo d d.values 0

/-! ## Dimension normalizer (`backend/services/fetcher.py`, `DataNormalizer`) -/

/-- Python `str.upper` restricted to the characters that occur in the
normalizer's vocabularies and codes (ASCII plus the Finnish letters);
other characters are left unchanged, as `Char.toUpper` does. -/
def pyUpperChar (c : Char) : Char :=
  if c = 'ä' then 'Ä'
  else if c = 'ö' then 'Ö'
  else if c = 'å' then 'Å'
  else c.toUpper

/-- Python `str.upper` on a whole string. -/
def pyUpper (s : String) : String := ⟨s.data.map pyUpperChar⟩

/-- Python whitespace test used by `str.strip()` (default argument). -/
def isPySpace (c : Char) : Bool :=
  c = ' ' || c = '\t' || c = '\n' || c = '\r' ||
    c = Char.ofNat 11 || c = Char.ofNat 12

/-- Python `str.strip()`: remove leading and trailing whitespace. -/
def pyStrip (s : String) : String :=
  ⟨((s.data.dropWhile isPySpace).reverse.dropWhile isPySpace).reverse⟩

/-- Does `l` start with `needle`? -/
def listStartsWith : List Char → List Char → Bool
  | _, [] => true
  | [], _ :: _ => false
  | a :: l, b :: m => a = b && listStartsWith l m

/-- Python substring containment `needle in haystack`. -/
def containsSub (needle : List Char) : List Char → Bool
  | [] => needle.isEmpty
  | a :: rest => listStartsWith (a :: rest) needle || containsSub needle rest

/-- Source `DataNormalizer.TIME_DIMENSION_NAMES` (the entry `"VuosineljÃ¤nnes"`
appears with this exact mojibake spelling in the source). -/
def TIME_DIMENSION_NAMES : List String :=
  ["Vuosi", "Year", "Kuukausi", "Month", "VuosineljÃ¤nnes", "Quarter"]

/-- Source `DataNormalizer.REGION_DIMENSION_NAMES`. -/
def REGION_DIMENSION_NAMES : List String :=
  ["Alue", "Region", "Maakunta", "Kunta", "Seutukunta"]

/-- Source `DataNormalizer.INDUSTRY_DIMENSION_NAMES`. -/
def INDUSTRY_DIMENSION_NAMES : List String :=
  ["Toimiala", "Industry", "TOL"]

/-- Source `DataNormalizer.VALUE_DIMENSION_NAMES`. -/
def VALUE_DIMENSION_NAMES : List String :=
  ["Tiedot", "Tieto", "Information", "Data"]

/-- The vocabulary test of `identify_dimensions`:
`any(name.upper() in dim_id_upper or name.upper() in dim_label_upper
for name in NAMES)`. -/
def vocabMatches (vocab : List String) (dim : StatFinParsedDimension) : Bool :=
  vocab.any fun name =>
    containsSub (pyUpper name).data (pyUpper dim.id).data ||
      containsSub (pyUpper name).data (pyUpper dim.label).data

/-- The four role fields a `DataNormalizer` instance carries
(`_time_dimension`, `_region_dimension`, `_industry_dimension`,
`_value_dimension`). -/
structure IdentifiedDimensions where
  timeDimension : Option String
  regionDimension : Option String
  industryDimension : Option String
  valueDimension : Option String
  deriving Repr, DecidableEq

/-- One iteration of the `identify_dimensions` loop: an
`if`/`elif` chain over the four vocabularies, assigning the current
dimension's id to the matching role (overwriting any earlier
assignment). -/
def identifyStep (st : IdentifiedDimensions) (dim : StatFinParsedDimension) :
    IdentifiedDimensions :=
  if vocabMatches TIME_DIMENSION_NAMES dim then
    { st with timeDimension := some dim.id }
  else if vocabMatches REGION_DIMENSION_NAMES dim then
    { st with regionDimension := some dim.id }
  else if vocabMatches INDUSTRY_DIMENSION_NAMES dim then
    { st with industryDimension := some dim.id }
  else if vocabMatches VALUE_DIMENSION_NAMES dim then
    { st with valueDimension := some dim.id }
  else st

/-- Source `DataNormalizer.identify_dimensions`. -/
def identify_dimensions (dims : List StatFinParsedDimension) :
    IdentifiedDimensions :=
  dims.foldl identifyStep ⟨none, none, none, none⟩

/-- One decimal digit? (regex `\d`, restricted to ASCII as in the
codes at hand). -/
def isDigitChar (c : Char) : Bool := '0' ≤ c && c ≤ '9'

/-- Numeric value of a digit string (`int(...)` on a match group). -/
def natOfDigits (l : List Char) : Nat :=
  l.foldl (fun a c => a * 10 + (c.toNat - 48)) 0

/-- Source `YEAR_PATTERN = ^(\d{4})$`. -/
def matchYear (l : List Char) : Option Nat :=
  match l with
  | [a, b, c, d] =>
      if isDigitChar a && isDigitChar b && isDigitChar c && isDigitChar d then
        some (natOfDigits [a, b, c, d])
      else none
  | _ => none

/-- Source `YEAR_QUARTER_PATTERN = ^(\d{4})Q([1-4])$`. -/
def matchYearQuarter (l : List Char) : Option (Nat × Nat) :=
  match l with
  | [a, b, c, d, q, e] =>
      if isDigitChar a && isDigitChar b && isDigitChar c && isDigitChar d &&
          q = 'Q' && '1' ≤ e && e ≤ '4' then
        some (natOfDigits [a, b, c, d], natOfDigits [e])
      else none
  | _ => none

/-- Source `YEAR_MONTH_PATTERN = ^(\d{4})M(\d{1,2})$` (one or two month
digits, any value 0–99). -/
def matchYearMonthM (l : List Char) : Option (Nat × Nat) :=
  match l with
  | [a, b, c, d, m, e] =>
      if isDigitChar a && isDigitChar b && isDigitChar c && isDigitChar d &&
          m = 'M' && isDigitChar e then
        some (natOfDigits [a, b, c, d], natOfDigits [e])
      else none
  | [a, b, c, d, m, e, f] =>
      if isDigitChar a && isDigitChar b && isDigitChar c && isDigitChar d &&
          m = 'M' && isDigitChar e && isDigitChar f then
        some (natOfDigits [a, b, c, d], natOfDigits [e, f])
      else none
  | _ => none

/-- Source `MONTH_YEAR_PATTERN = ^(\d{4})-(\d{2})$`. -/
def matchYearDash (l : List Char) : Option (Nat × Nat) :=
  match l with
  | [a, b, c, d, m, e, f] =>
      if isDigitChar a && isDigitChar b && isDigitChar c && isDigitChar d &&
          m = '-' && isDigitChar e && isDigitChar f then
        some (natOfDigits [a, b, c, d], natOfDigits [e, f])
      else none
  | _ => none

/-- Source `re.search(r"(\d{4})", s)`: the leftmost run of four consecutive
digits anywhere in the string. -/
def findYearRun : List Char → Option Nat
  | [] => none
  | a :: rest =>
      match rest with
      | b :: c :: d :: _ =>
          if isDigitChar a && isDigitChar b && isDigitChar c && isDigitChar d then
            some (natOfDigits [a, b, c, d])
          else findYearRun rest
      | _ => none

/-- Source `DataNormalizer.parse_time_value`: the patterns tried in source
order, first match wins; the result pairs `(year, quarter, month)` with
a flag that is `true` exactly when the year was recovered by the
warning fallback (the `logger.warning` branch); `none` models the
raised `ValueError` (`"Unrecognized time code format"`). -/
def parse_time_value (timeCode : String) :
    Option ((Nat × Option Nat × Option Nat) × Bool) :=
  let l := timeCode.data
  match matchYear l with
  | some y => some ((y, none, none), false)
  | none =>
  match matchYearQuarter l with
  | some (y, q) => some ((y, some q, none), false)
  | none =>
  match matchYearMonthM l with
  | some (y, m) => some ((y, none, some m), false)
  | none =>
  match matchYearDash l with
  | some (y, m) => some ((y, none, some m), false)
  | none =>
  match findYearRun l with
  | some y => some ((y, none, none), true)
  | none => none

/-- Source `DataNormalizer.normalize_region_code`. -/
def normalize_region_code (code : String) : String :=
  if ["SSS", "KOKO MAA", "WHOLE COUNTRY"].contains (pyUpper code) then
    "SSS"
  else
    let normalized := pyStrip code
    if listStartsWith (pyUpper normalized).data ['M', 'K'] &&
        decide (2 < normalized.data.length) then
      ⟨normalized.data.drop 2⟩
    else normalized

/-- Source `DataNormalizer.normalize_industry_code`. -/
def normalize_industry_code (code : String) : String :=
  let normalized := pyUpper (pyStrip code)
  if listStartsWith normalized.data ['T', 'O', 'L', '_'] then
    ⟨normalized.data.drop 4⟩
  else if listStartsWith normalized.data
      ['T', 'O', 'L', '2', '0', '0', '8', '_'] then
    ⟨normalized.data.drop 8⟩
  else normalized

/-- The `_normalize_data_point` fallback time loop: for each of the
literal names, if the name is a key of `coordinates`, try to parse its
code; a parse failure moves on to the next name. -/
def fallbackTime (coordinates : List (String × String)) :
    List String → Option (Nat × Option Nat × Option Nat)
  | [] => none
  | n :: rest =>
      match lookupAssoc coordinates n with
      | none => fallbackTime coordinates rest
      | some code =>
          match parse_time_value code with
          | some (t, _) => some t
          | none => fallbackTime coordinates rest

/-- The `_normalize_data_point` fallback loops for region/industry and
value label: the first listed name that is a key of the map wins. -/
def fallbackCode (m : List (String × String)) : List String → Option String
  | [] => none
  | n :: rest =>
      match lookupAssoc m n with
      | some v => some v
      | none => fallbackCode m rest

/-- Source `NormalizedRecord` from `backend/services/fetcher.py`. -/
structure NormalizedRecord where
  year : Nat
  quarter : Option Nat
  month : Option Nat
  regionCode : Option String
  industryCode : Option String
  value : Option ℚ
  valueLabel : Option String
  unit : Option String
  deriving Repr, DecidableEq

/-- Source `DataNormalizer._normalize_data_point`: `none` both for the
explicit `return None` paths (unparseable time code on the identified
time dimension, no resolvable year) and mirrors the caller's
per-point exception guard. -/
def normalize_data_point (ids : IdentifiedDimensions)
    (coordinates labels : List (String × String)) (value : Option ℚ) :
    Option NormalizedRecord :=
  -- time extraction through the identified time dimension:
  -- `.error true` models the `return None` after a parse failure,
  -- `.error false` the case where no identified time code was available
  let timeViaDim : Except Bool (Nat × Option Nat × Option Nat) :=
    match ids.timeDimension with
    | none => .error false
    | some t =>
        match lookupAssoc coordinates t with
        | none => .error false
        | some code =>
            match parse_time_value code with
            | none => .error true
            | some (tr, _) => .ok tr
  let timeResult : Option (Nat × Option Nat × Option Nat) :=
    match timeViaDim with
    | .error true => none
    | .error false => fallbackTime coordinates ["Vuosi", "Year"]
    | .ok tr => some tr
  match timeResult with
  | none => none
  | some (year, quarter, month) =>
      let regionCode : Option String :=
        match ids.regionDimension with
        | some r =>
            match lookupAssoc coordinates r with
            | some code => some (normalize_region_code code)
            | none =>
                (fallbackCode coordinates
                  ["Alue", "Region", "Maakunta", "Kunta"]).map
                  normalize_region_code
        | none =>
            (fallbackCode coordinates
              ["Alue", "Region", "Maakunta", "Kunta"]).map
              normalize_region_code
      let industryCode : Option String :=
        match ids.industryDimension with
        | some i =>
            match lookupAssoc coordinates i with
            | some code => some (normalize_industry_code code)
            | none =>
                (fallbackCode coordinates ["Toimiala", "Industry"]).map
                  normalize_industry_code
        | none =>
            (fallbackCode coordinates ["Toimiala", "Industry"]).map
              normalize_industry_code
      let valueLabel : Option String :=
        match ids.valueDimension with
        | some v =>
            match lookupAssoc labels v with
            | some lbl => some lbl
            | none => fallbackCode labels ["Tiedot", "Information"]
        | none => fallbackCode labels ["Tiedot", "Information"]
      some ⟨year, quarter, month, regionCode, industryCode, value,
        valueLabel, none⟩

/-- Source `DataNormalizer.normalize_records`: identify dimension roles, list
the data points, and keep every point that normalizes; `none` when
`get_data_points` raises (the exception escapes `normalize_records`). -/
def normalize_records (d : StatFinDataset) :
    Option (List NormalizedRecord) :=
  let ids := identify_dimensions d.dimensions
  match getDataPoints d with
  | none => none
  | some pts =>
      some (pts.filterMap fun p =>
        normalize_data_point ids p.coordinates p.labels p.value)

/-! ## Transport client retry loop (`StatFinClient._request`) -/

/-- What one HTTP attempt can produce: a response with status code and
optional `Retry-After` header, or a transport-level exception
(`httpx.TimeoutException` / `httpx.RequestError`). -/
inductive TransportOutcome where
  | response (status : Nat) (retryAfter : Option Int) (body : String)
  | timeoutError (msg : String)
  | connectionError (msg : String)
  deriving Repr, DecidableEq

/-- The typed errors `_request` can raise: `StatFinRateLimitError`,
`StatFinError("Server error", status)`, `StatFinError("Client error",
status)` and the final `StatFinError("Request failed after …")`
carrying the last transport exception. -/
inductive RequestError where
  | rateLimited (retryAfter : Int)
  | serverError (status : Nat) (body : String)
  | clientError (status : Nat) (body : String)
  | exhausted (lastError : Option String)
  deriving Repr, DecidableEq

/-- The retry loop of `StatFinClient._request`, one constructor case
per loop-iteration outcome.  `fuel` is the number of loop iterations
left (`range(max_retries + 1)` minus the iterations already run),
`attempt` the 0-based attempt counter, `retryDelay` the current backoff
(a float in the source; exact here as `ℚ` since it only ever takes
values `min(2^k, 30)`).  The result pairs the number of attempts made
with the outcome.  Running out of fuel is the fall-through after the
loop: `StatFinError("Request failed after …", last_error)`. -/
def requestGo (outcomes : Nat → TransportOutcome) (maxRetries : Nat) :
    Nat → Nat → ℚ → Option String → Nat × Except RequestError String
  | 0, attempt, _, lastError => (attempt, .error (.exhausted lastError))
  | fuel + 1, attempt, retryDelay, lastError =>
      let nextDelay := min (retryDelay * 2) 30
      match outcomes attempt with
      | .response status retryAfterHeader body =>
          if status = 429 then
            -- `int(response.headers.get("Retry-After", retry_delay))`
            let retryAfter := retryAfterHeader.getD ⌊retryDelay⌋
            if attempt < maxRetries then
              requestGo outcomes maxRetries fuel (attempt + 1) nextDelay
                lastError
            else (attempt + 1, .error (.rateLimited retryAfter))
          else if 500 ≤ status then
            if attempt < maxRetries then
              requestGo outcomes maxRetries fuel (attempt + 1) nextDelay
                lastError
            else (attempt + 1, .error (.serverError status body))
          else if 400 ≤ status then
            (attempt + 1, .error (.clientError status body))
          else (attempt + 1, .ok body)
      | .timeoutError m =>
          if attempt < maxRetries then
            requestGo outcomes maxRetries fuel (attempt + 1) nextDelay (some m)
          else (attempt + 1, .error (.exhausted (some m)))
      | .connectionError m =>
          if attempt < maxRetries then
            requestGo outcomes maxRetries fuel (attempt + 1) nextDelay (some m)
          else (attempt + 1, .error (.exhausted (some m)))

/-- Source `StatFinClient._request` against a deterministic transport:
`outcomes n` is what the `n`-th attempt returns.  Initial state:
attempt `0`, `retry_delay = INITIAL_RETRY_DELAY = 1.0`,
`last_error = None`, at most `max_retries + 1` loop iterations. -/
def request (maxRetries : Nat) (outcomes : Nat → TransportOutcome) :
    Nat × Except RequestError String :=
  requestGo outcomes maxRetries (maxRetries + 1) 0 1 none

/-! ## Cube decoder (`StatFinClient.parse_jsonstat`) -/

/-- The `category` member of a raw JSON-stat dimension: the `index`
map `code → position` and the `label` map `code → text`, in document
(dict insertion) order. -/
structure RawCategoryMap where
  index : List (String × Nat)
  label : List (String × String)
  deriving Repr, DecidableEq

/-- One entry of the raw `dimension` map. -/
structure RawDimension where
  label : Option String
  category : Option RawCategoryMap
  deriving Repr, DecidableEq

/-- One entry of the raw `value` array: JSON `null`, a number, or a
value that `float()` cannot coerce. -/
inductive RawValue where
  | null
  | num (x : ℚ)
  | nonnumeric (s : String)
  deriving Repr, DecidableEq

/-- A raw JSON-stat2 response document; `none` fields model absent
keys. -/
structure RawCube where
  id : Option (List String)
  size : Option (List Nat)
  dimension : Option (List (String × RawDimension))
  value : Option (List RawValue)
  label : Option String
  source : Option String
  updated : Option String
  deriving Repr, DecidableEq

/-- Polymorphic association-list lookup (`dict.get` over the raw maps). -/
def lookupRaw {α : Type} (l : List (String × α)) (k : String) : Option α :=
  match l with
  | [] => none
  | (k', v') :: rest => if k' = k then some v' else lookupRaw rest k

/-- Stable insertion of a category into an index-sorted list (the
building block of Python's stable `categories.sort(key=lambda c:
c.index)`). -/
def insertCategory (c : StatFinCategory) :
    List StatFinCategory → List StatFinCategory
  | [] => [c]
  | d :: rest =>
      if d.index < c.index then d :: insertCategory c rest
      else c :: d :: rest

/-- Stable sort of categories by `index`. -/
def sortCategories : List StatFinCategory → List StatFinCategory
  | [] => []
  | c :: rest => insertCategory c (sortCategories rest)

/-- Categories of one dimension: built from the `index` map in
document order, labelled through the `label` map (falling back to the
code), then sorted by index. -/
def parseCategories (cm : RawCategoryMap) : List StatFinCategory :=
  sortCategories (cm.index.map fun p =>
    ⟨p.2, p.1, (lookupRaw cm.label p.1).getD p.1⟩)

/-- One iteration of the dimension loop of `parse_jsonstat`: `none`
when the declared id is missing from the `dimension` map (the
logged-and-skipped case). -/
def parseDimension (rawDims : List (String × RawDimension))
    (dimId : String) : Option StatFinParsedDimension :=
  (lookupRaw rawDims dimId).map fun dd =>
    ⟨dimId, dd.label.getD dimId,
      parseCategories (dd.category.getD ⟨[], []⟩)⟩

/-- Source `float(v)` coercion of one raw value entry, `None` on `null` and on
coercion failure. -/
def parseValue : RawValue → Option ℚ
  | .null => none
  | .num x => some x
  | .nonnumeric _ => none

/-- Source `StatFinClient.parse_jsonstat`: raises `StatFinError` when any of
the required top-level fields `id`, `dimension`, `value` is absent;
otherwise builds the dataset, skipping declared dimensions absent from
the `dimension` map. -/
def parse_jsonstat (r : RawCube) : Except String StatFinDataset :=
  match r.id, r.dimension, r.value with
  | some ids, some rawDims, some rawValues =>
      .ok
        { label := r.label.getD ""
          source := r.source
          updated := r.updated
          dimensions := ids.filterMap (parseDimension rawDims)
          values := rawValues.map parseValue
          sizes := r.size.getD []
          dimensionIds := ids }
  | _, _, _ =>
      .error
        "Invalid JSON-stat response: missing required fields (id, dimension, value)"

/-! ## Fetch orchestrator (`backend/services/fetcher.py`, `DataFetcher`)

The orchestrator's persistent collaborators are modelled explicitly:
a session holds the statistics table and the (optional) fetch-status
row for the source; `fetch_dataset`'s `commit`/`rollback` decides
whether the session's pending changes become the new persisted state
(SQLAlchemy `rollback` discards all uncommitted changes).  Timestamps
are integer seconds; `timedelta(hours=h)` is `h * 3600`. -/

/-- The fetch-status fields of a `FetchConfig` row. -/
structure FetchConfigState where
  lastFetchStatus : String
  lastFetchAt : Option Int
  lastErrorMessage : Option String
  nextFetchAt : Option Int
  fetchCount : Int
  fetchIntervalHours : Int
  updatedAt : Option Int
  deriving Repr, DecidableEq

/-- Source `DataFetcher._update_fetch_status`. -/
def update_fetch_status (now : Int) (success : Bool)
    (errorMessage : Option String) (cfg : FetchConfigState) :
    FetchConfigState :=
  let cfg' :=
    if success then
      { cfg with
        lastFetchStatus := "success"
        lastFetchAt := some now
        fetchCount := cfg.fetchCount + 1
        lastErrorMessage := none }
    else
      { cfg with
        lastFetchStatus := "failed"
        lastErrorMessage := errorMessage }
  { cfg' with
    nextFetchAt := some (now + cfg.fetchIntervalHours * 3600)
    updatedAt := some now }

/-- One row of the `statistics` table as built by `_store_records`. -/
structure StatisticRow where
  datasetId : String
  year : Nat
  quarter : Option Nat
  month : Option Nat
  regionCode : Option String
  industryCode : Option String
  value : Option ℚ
  valueLabel : Option String
  unit : Option String
  fetchedAt : Int
  deriving Repr, DecidableEq

/-- Source `FetchResult` (the wall-clock `duration_seconds` field is omitted:
no claim depends on it). -/
structure FetchResultR where
  success : Bool
  datasetId : String
  recordsFetched : Nat
  recordsInserted : Nat
  recordsUpdated : Nat
  recordsSkipped : Nat
  errorMessage : Option String
  warnings : List String
  deriving Repr, DecidableEq

/-- Per-record body of the `_store_records` loop: null out region and
industry codes that are not in the valid-code snapshots, recording a
warning for each. -/
def storeRecord (datasetId : String)
    (validRegions validIndustries : List String) (now : Int)
    (r : NormalizedRecord) : StatisticRow × List String :=
  let (regionCode, w1) :=
    match r.regionCode with
    | some c =>
        if validRegions.contains c then (some c, ([] : List String))
        else (none, ["Unknown region code: " ++ c])
    | none => (none, [])
  let (industryCode, w2) :=
    match r.industryCode with
    | some c =>
        if validIndustries.contains c then (some c, ([] : List String))
        else (none, ["Unknown industry code: " ++ c])
    | none => (none, [])
  (⟨datasetId, r.year, r.quarter, r.month, regionCode, industryCode,
      r.value, r.valueLabel, r.unit, now⟩,
    w1 ++ w2)

/-- Source `DataFetcher._store_records`: the rows to add and the warnings, in
record order.  The inserted count is the number of rows. -/
def store_records (datasetId : String)
    (validRegions validIndustries : List String) (now : Int)
    (records : List NormalizedRecord) : List StatisticRow × List String :=
  match records with
  | [] => ([], [])
  | r :: rest =>
      ((storeRecord datasetId validRegions validIndustries now r).1 ::
          (store_records datasetId validRegions validIndustries now rest).1,
        (storeRecord datasetId validRegions validIndustries now r).2 ++
          (store_records datasetId validRegions validIndustries now rest).2)

/-- The session-visible state a fetch touches: the statistics table
and the source's fetch-status row. -/
structure SessionState where
  statistics : List StatisticRow
  fetchConfig : Option FetchConfigState
  deriving Repr, DecidableEq

/-- Error message recorded by the `except` branches of `_do_fetch`
(`"Rate limited: {e}"`, `"API error: {e}"`, or `str(e)`). -/
def fetchErrorMessage : RequestError → String
  | .rateLimited _ => "Rate limited: Rate limited by StatFin API"
  | .serverError status _ =>
      "API error: StatFin API error (" ++ toString status ++ "): Server error"
  | .clientError status _ =>
      "API error: StatFin API error (" ++ toString status ++ "): Client error"
  | .exhausted _ => "API error: StatFin API error: Request failed"

/-- Update the session's fetch-status row if the source has one
(`if fetch_config:` guard in `_do_fetch`). -/
def touchStatus (now : Int) (success : Bool) (err : Option String)
    (st : SessionState) : SessionState :=
  { st with
    fetchConfig := st.fetchConfig.map (update_fetch_status now success err) }

/-- Source `DataFetcher._do_fetch` for a source whose dataset row exists,
against a transport result `resp` (the outcome of
`fetch_and_parse`'s `_request` call).  Returns the `FetchResult` and
the session state with this fetch's *uncommitted* changes applied. -/
def do_fetch (now : Int) (datasetId : String)
    (validRegions validIndustries : List String)
    (resp : Except RequestError RawCube) (st : SessionState) :
    FetchResultR × SessionState :=
  match resp with
  | .error e =>
      (⟨false, datasetId, 0, 0, 0, 0, some (fetchErrorMessage e), []⟩,
        touchStatus now false (some (fetchErrorMessage e)) st)
  | .ok raw =>
      match parse_jsonstat raw with
      | .error m =>
          -- `parse_jsonstat` raises `StatFinError` → "API error" branch
          (⟨false, datasetId, 0, 0, 0, 0,
              some ("API error: StatFin API error: " ++ m), []⟩,
            touchStatus now false
              (some ("API error: StatFin API error: " ++ m)) st)
      | .ok ds =>
          let fetched := ds.values.length
          match normalize_records ds with
          | none =>
              -- `get_data_points` raised → generic `except Exception`
              (⟨false, datasetId, fetched, 0, 0, 0,
                  some "integer division or modulo by zero", []⟩,
                touchStatus now false
                  (some "integer division or modulo by zero") st)
          | some records =>
              let rows := (store_records datasetId validRegions
                validIndustries now records).1
              let warnings := (store_records datasetId validRegions
                validIndustries now records).2
              let st' := touchStatus now true none
                { st with statistics := st.statistics ++ rows }
              (⟨true, datasetId, fetched, rows.length, 0, 0, none,
                  warnings⟩,
                st')

/-- Source `DataFetcher.fetch_dataset`: run `_do_fetch` in a session, then
`commit` on success and `rollback` (discarding every uncommitted
change, statistics and status alike) on failure. -/
def fetch_dataset (now : Int) (datasetId : String)
    (validRegions validIndustries : List String)
    (resp : Except RequestError RawCube) (db : SessionState) :
    FetchResultR × SessionState :=
  let (result, pending) := do_fetch now datasetId validRegions
    validIndustries resp db
  if result.success then (result, pending) else (result, db)

/-! ## Concrete fixtures used by the theorems -/

/-- A dataset with an invariant-respecting shape (two dimension slots
declared by `sizes`, none materialized) whose second size is zero:
`_index_to_coordinates` divides by zero on it. -/
def zeroSizeDataset : StatFinDataset :=
  { label := "", source := none, updated := none, dimensions := [],
    values := [some 1], sizes := [2, 0], dimensionIds := [] }

/-- A dataset whose single dimension has fewer categories (1) than its
declared size (2): the cell at flat index 1 decodes to a coordinate
with no category. -/
def oobDataset : StatFinDataset :=
  { label := "", source := none, updated := none,
    dimensions := [⟨"A", "A", [⟨0, "a0", "A0"⟩]⟩],
    values := [some 1, some 2], sizes := [2], dimensionIds := ["A"] }

/-- A dataset whose time dimension carries the code `"2023M13"`, which
`YEAR_MONTH_PATTERN` accepts. -/
def monthCube : StatFinDataset :=
  { label := "", source := none, updated := none,
    dimensions := [⟨"Vuosi", "Vuosi", [⟨0, "2023M13", "2023M13"⟩]⟩],
    values := [some 5], sizes := [1], dimensionIds := ["Vuosi"] }

/-- A raw cube declaring dimensions `A` and `B` in `id` but defining
only `A` in the `dimension` map. -/
def skipCube : RawCube :=
  { id := some ["A", "B"], size := some [2],
    dimension :=
      some [("A", ⟨some "A label",
        some ⟨[("a0", 0), ("a1", 1)], [("a0", "A0"), ("a1", "A1")]⟩⟩)],
    value := some [.num 1, .null],
    label := some "t", source := none, updated := none }

/-- The dataset `parse_jsonstat` produces from `skipCube`. -/
def skipDataset : StatFinDataset :=
  { label := "t", source := none, updated := none,
    dimensions := [⟨"A", "A label", [⟨0, "a0", "A0"⟩, ⟨1, "a1", "A1"⟩]⟩],
    values := [some 1, none], sizes := [2], dimensionIds := ["A", "B"] }

/-- A fetch-status row in its initial state. -/
def cfg0 : FetchConfigState :=
  { lastFetchStatus := "pending", lastFetchAt := none,
    lastErrorMessage := none, nextFetchAt := none, fetchCount := 0,
    fetchIntervalHours := 24, updatedAt := none }

/-- A session whose source has the fetch config `cfg0` and no
statistics yet. -/
def db0 : SessionState := { statistics := [], fetchConfig := some cfg0 }

/-- A transport result for a fetch whose every attempt returned
HTTP 500 (retries exhausted). -/
def serverFailResp : Except RequestError RawCube :=
  .error (.serverError 500 "Internal Server Error")

/-- A well-formed single-cell cube (`Vuosi = 2023`, value 5). -/
def okCube : RawCube :=
  { id := some ["Vuosi"], size := some [1],
    dimension :=
      some [("Vuosi", ⟨some "Vuosi",
        some ⟨[("2023", 0)], [("2023", "2023")]⟩⟩)],
    value := some [.num 5],
    label := some "t", source := none, updated := none }

/-! ## Helper lemmas -/

/-- First-some choice on options (`a` if present, else `b`). -/
def optOr {α : Type} (a b : Option α) : Option α :=
  match a with
  | some x => some x
  | none => b

theorem optOr_none_right {α : Type} (a : Option α) : optOr a none = a := by
  cases a <;> rfl

theorem optOr_assoc {α : Type} (a b c : Option α) :
    optOr (optOr a b) c = optOr a (optOr b c) := by
  cases a <;> rfl

theorem getLast?_eq_optOr {α : Type} (a : α) (l : List α) :
    (a :: l).getLast? = optOr l.getLast? (some a) := by
  cases l with
  | nil => rfl
  | cons b t =>
      rw [List.getLast?_cons_cons]
      cases h : (b :: t).getLast? with
      | some x => rfl
      | none => simp at h

theorem identifyStep_time_pos {dim : StatFinParsedDimension}
    (st : IdentifiedDimensions)
    (h : vocabMatches TIME_DIMENSION_NAMES dim = true) :
    (identifyStep st dim).timeDimension = some dim.id := by
  simp [identifyStep, h]

theorem identifyStep_time_neg {dim : StatFinParsedDimension}
    (st : IdentifiedDimensions)
    (h : vocabMatches TIME_DIMENSION_NAMES dim = false) :
    (identifyStep st dim).timeDimension = st.timeDimension := by
  simp only [identifyStep, h, Bool.false_eq_true, if_false]
  split
  · rfl
  · split
    · rfl
    · split <;> rfl

theorem foldl_identifyStep_time (l : List StatFinParsedDimension)
    (st : IdentifiedDimensions) :
    (l.foldl identifyStep st).timeDimension =
      optOr (((l.filter fun d => vocabMatches TIME_DIMENSION_NAMES d).map
        fun d => d.id).getLast?) st.timeDimension := by
  induction l generalizing st with
  | nil => rfl
  | cons d rest ih =>
      rw [List.foldl_cons, ih]
      cases h : vocabMatches TIME_DIMENSION_NAMES d with
      | true =>
          rw [identifyStep_time_pos st h]
          have hf : (d :: rest).filter
              (fun d => vocabMatches TIME_DIMENSION_NAMES d) =
              d :: rest.filter (fun d => vocabMatches TIME_DIMENSION_NAMES d) := by
            simp [List.filter_cons, h]
          rw [hf, List.map_cons, getLast?_eq_optOr, optOr_assoc]
          rfl
      | false =>
          rw [identifyStep_time_neg st h]
          have hf : (d :: rest).filter
              (fun d => vocabMatches TIME_DIMENSION_NAMES d) =
              rest.filter (fun d => vocabMatches TIME_DIMENSION_NAMES d) := by
            simp [List.filter_cons, h]
          rw [hf]

theorem listProd_cons (a : Nat) (l : List Nat) :
    listProd (a :: l) = a * listProd l := by
  have key : ∀ (m : List Nat) (x : Nat),
      m.foldl (· * ·) x = x * m.foldl (· * ·) 1 := by
    intro m
    induction m with
    | nil => intro x; simp
    | cons b t ih =>
        intro x
        simp only [List.foldl_cons]
        rw [ih (x * b), ih (1 * b)]
        ring
  simp only [listProd, List.foldl_cons]
  rw [key l (1 * a)]
  ring

theorem listProd_pos {l : List Nat} (h : ∀ x ∈ l, 0 < x) :
    0 < listProd l := by
  induction l with
  | nil => decide
  | cons a t ih =>
      rw [listProd_cons]
      exact Nat.mul_pos (h a (by simp)) (ih fun x hx => h x (by simp [hx]))

theorem listProd_drop_pos {all : List Nat} (h : ∀ x ∈ all, 0 < x)
    (j : Nat) : 0 < listProd (all.drop j) :=
  listProd_pos fun x hx => h x (List.mem_of_mem_drop hx)

theorem indexToCoordsGo_total {all : List Nat} (h : ∀ x ∈ all, 0 < x) :
    ∀ (sizes : List Nat) (rem : Nat),
      ∃ cs, indexToCoordsGo all sizes rem = some cs ∧
        cs.length = sizes.length := by
  intro sizes
  induction sizes with
  | nil => exact fun rem => ⟨[], rfl, rfl⟩
  | cons s rest ih =>
      intro rem
      have hd : ¬ listProd (all.drop (firstIndexOf all s + 1)) = 0 :=
        Nat.pos_iff_ne_zero.mp (listProd_drop_pos h _)
      obtain ⟨cs, hcs, hlen⟩ :=
        ih (rem % listProd (all.drop (firstIndexOf all s + 1)))
      refine ⟨rem / listProd (all.drop (firstIndexOf all s + 1)) :: cs, ?_, by
        simp [hlen]⟩
      simp only [indexToCoordsGo, if_neg hd, hcs]

theorem buildPointMaps_total (coords : List Nat) :
    ∀ (dims : List StatFinParsedDimension) (j : Nat)
      (cs ls : List (String × String)),
      j + dims.length ≤ coords.length →
      ∃ r, buildPointMaps coords dims j cs ls = some r := by
  intro dims
  induction dims with
  | nil => exact fun j cs ls _ => ⟨(cs, ls), rfl⟩
  | cons dim rest ih =>
      intro j cs ls hj
      have hlt : j < coords.length := by
        simp only [List.length_cons] at hj
        omega
      have hget : coords.get? j = some (coords.get ⟨j, hlt⟩) :=
        List.get?_eq_get hlt
      have hrec : j + 1 + rest.length ≤ coords.length := by
        simp only [List.length_cons] at hj
        omega
      simp only [buildPointMaps, hget]
      cases getCategoryByIndex dim (coords.get ⟨j, hlt⟩) with
      | none => exact ih (j + 1) cs ls hrec
      | some cat => exact ih (j + 1) _ _ hrec

theorem dataPointAt_total {d : StatFinDataset}
    (hpos : ∀ s ∈ d.sizes, 0 < s)
    (hlen : d.dimensions.length ≤ d.sizes.length) (i : Nat)
    (v : Option ℚ) : ∃ p, dataPointAt d i v = some p := by
  obtain ⟨cs, hcs, hcslen⟩ := indexToCoordsGo_total hpos d.sizes i
  obtain ⟨r, hr⟩ := buildPointMaps_total cs d.dimensions 0 [] []
    (by rw [hcslen]; omega)
  exact ⟨⟨v, r.1, r.2⟩, by
    simp only [dataPointAt, indexToCoordinates, hcs, hr]⟩

theorem dataPointsGo_total {d : StatFinDataset}
    (hpos : ∀ s ∈ d.sizes, 0 < s)
    (hlen : d.dimensions.length ≤ d.sizes.length) :
    ∀ (vals : List (Option ℚ)) (i : Nat),
      ∃ pts, dataPointsGo d vals i = some pts ∧
        pts.length = vals.length := by
  intro vals
  induction vals with
  | nil => exact fun i => ⟨[], rfl, rfl⟩
  | cons v rest ih =>
      intro i
      obtain ⟨p, hp⟩ := dataPointAt_total hpos hlen i v
      obtain ⟨pts, hpts, hptslen⟩ := ih (i + 1)
      exact ⟨p :: pts, by simp only [dataPointsGo, hp, hpts], by
        simp [hptslen]⟩

theorem requestGo_attempts_le (o : Nat → TransportOutcome) (mr : Nat) :
    ∀ (fuel attempt : Nat) (delay : ℚ) (lastErr : Option String),
      (requestGo o mr fuel attempt delay lastErr).1 ≤ attempt + fuel := by
  intro fuel
  induction fuel with
  | zero =>
      intro attempt delay lastErr
      show attempt ≤ attempt + 0
      omega
  | succ f ih =>
      intro attempt delay lastErr
      simp only [requestGo]
      cases o attempt with
      | response status ra b =>
          dsimp only
          split
          · split
            · exact (ih _ _ _).trans (by omega)
            · show attempt + 1 ≤ attempt + (f + 1)
              omega
          · split
            · split
              · exact (ih _ _ _).trans (by omega)
              · show attempt + 1 ≤ attempt + (f + 1)
                omega
            · split
              · show attempt + 1 ≤ attempt + (f + 1)
                omega
              · show attempt + 1 ≤ attempt + (f + 1)
                omega
      | timeoutError m =>
          dsimp only
          split
          · exact (ih _ _ _).trans (by omega)
          · show attempt + 1 ≤ attempt + (f + 1)
            omega
      | connectionError m =>
          dsimp only
          split
          · exact (ih _ _ _).trans (by omega)
          · show attempt + 1 ≤ attempt + (f + 1)
            omega

theorem requestGo_const_429 (mr : Nat) (ra : Int) (b : String) :
    ∀ (fuel attempt : Nat) (delay : ℚ) (lastErr : Option String),
      attempt + fuel = mr + 1 → 1 ≤ fuel →
      requestGo (fun _ => .response 429 (some ra) b) mr fuel attempt delay
        lastErr = (mr + 1, .error (.rateLimited ra)) := by
  intro fuel
  induction fuel with
  | zero =>
      intro attempt delay lastErr h h1
      omega
  | succ f ih =>
      intro attempt delay lastErr h h1
      simp only [requestGo, reduceIte]
      by_cases hlt : attempt < mr
      · rw [if_pos hlt]
        exact ih (attempt + 1) _ _ (by omega) (by omega)
      · rw [if_neg hlt]
        have ha : attempt = mr := by omega
        rw [ha]
        rfl

theorem requestGo_const_server (mr status : Nat) (ra : Option Int)
    (b : String) (hs : 500 ≤ status) :
    ∀ (fuel attempt : Nat) (delay : ℚ) (lastErr : Option String),
      attempt + fuel = mr + 1 → 1 ≤ fuel →
      requestGo (fun _ => .response status ra b) mr fuel attempt delay
        lastErr = (mr + 1, .error (.serverError status b)) := by
  intro fuel
  induction fuel with
  | zero =>
      intro attempt delay lastErr h h1
      omega
  | succ f ih =>
      intro attempt delay lastErr h h1
      simp only [requestGo]
      rw [if_neg (by omega : ¬ status = 429), if_pos hs]
      by_cases hlt : attempt < mr
      · rw [if_pos hlt]
        exact ih (attempt + 1) _ _ (by omega) (by omega)
      · rw [if_neg hlt]
        have ha : attempt = mr := by omega
        rw [ha]

theorem requestGo_const_timeout (mr : Nat) (m : String) :
    ∀ (fuel attempt : Nat) (delay : ℚ) (lastErr : Option String),
      attempt + fuel = mr + 1 → 1 ≤ fuel →
      requestGo (fun _ => .timeoutError m) mr fuel attempt delay lastErr =
        (mr + 1, .error (.exhausted (some m))) := by
  intro fuel
  induction fuel with
  | zero =>
      intro attempt delay lastErr h h1
      omega
  | succ f ih =>
      intro attempt delay lastErr h h1
      simp only [requestGo]
      by_cases hlt : attempt < mr
      · rw [if_pos hlt]
        exact ih (attempt + 1) _ _ (by omega) (by omega)
      · rw [if_neg hlt]
        have ha : attempt = mr := by omega
        rw [ha]

/-! ## Claim theorems -/

/-- C1: the mixed-radix decoder is NOT exact on size lists with
repeated cardinalities.  At `sizes = [2, 2]`, flat index 1:
`_index_to_coordinates` returns `[0, 0]` because its divisor uses
`sizes.index(size)` — the first occurrence of the *value* — while the
specification's formula `(i // product(s_(k+1..))) mod s_k` gives
coordinate 1 at dimension 1, so decoding the encoding of `[0, 1]` does
not return `[0, 1]` and the decode/encode round trip fails. -/
theorem index_to_coordinates_wrong_for_repeated_sizes :
    indexToCoordinates [2, 2] 1 = some [0, 0] ∧
    specCoordinate [2, 2] 1 0 = 0 ∧
    specCoordinate [2, 2] 1 1 = 1 ∧
    mixedRadixEncode [2, 2] [0, 1] = 1 ∧
    indexToCoordinates [2, 2] (mixedRadixEncode [2, 2] [0, 1]) ≠
      some [0, 1] := by decide

/-- C5: `parse_time_value` tries the year, year+quarter, year+M+month,
year-dash-month and 4-digit-run patterns in this order, first match
winning: the five documented examples evaluate as specified (the
fallback flag records the warning) and `"abc"` raises. -/
theorem parse_time_value_examples :
    parse_time_value "2023" = some ((2023, none, none), false) ∧
    parse_time_value "2023Q2" = some ((2023, some 2, none), false) ∧
    parse_time_value "2023M06" = some ((2023, none, some 6), false) ∧
    parse_time_value "2023-06" = some ((2023, none, some 6), false) ∧
    parse_time_value "abc2021xyz" = some ((2021, none, none), true) ∧
    parse_time_value "abc" = none :=
  ⟨by decide, by decide, by decide, by decide, by decide, by decide⟩

/-- C6: `normalize_region_code` maps the whole-country aliases
(case-insensitively) to `"SSS"` and strips `MK` before digits, but the
claimed "only when followed by digits" guard is absent from the code —
the test is merely `len > 2` — so `"MKAB"`, whose 2-letter `MK` is
followed by letters, is stripped to `"AB"` instead of passing through
unchanged. -/
theorem normalize_region_code_strips_without_digits :
    normalize_region_code "SSS" = "SSS" ∧
    normalize_region_code "KOKO MAA" = "SSS" ∧
    normalize_region_code "koko maa" = "SSS" ∧
    normalize_region_code "MK01" = "01" ∧
    normalize_region_code "MKAB" = "AB" := by decide

/-- C2: `_request` makes at most `maxRetries + 1` attempts.  A
transport that always answers 429 exhausts all attempts and raises the
rate-limit error carrying the `Retry-After` value; always-5xx exhausts
all attempts and raises the server error; a 4xx status other than 429
raises immediately after exactly one attempt; an always-failing
transport (timeout) exhausts all attempts and raises the exhaustion
error.  Concretely: `maxRetries = 0` with constant
429/`Retry-After: 30` makes exactly 1 attempt and carries
`retry_after = 30`; `maxRetries = 1` with constant 500 makes exactly 2
attempts before the server error. -/
theorem request_retry_policy :
    (∀ (maxRetries : Nat) (outcomes : Nat → TransportOutcome),
      (request maxRetries outcomes).1 ≤ maxRetries + 1) ∧
    (∀ (maxRetries : Nat) (ra : Int) (b : String),
      request maxRetries (fun _ => .response 429 (some ra) b) =
        (maxRetries + 1, .error (.rateLimited ra))) ∧
    (∀ (maxRetries status : Nat) (ra : Option Int) (b : String),
      500 ≤ status →
      request maxRetries (fun _ => .response status ra b) =
        (maxRetries + 1, .error (.serverError status b))) ∧
    (∀ (maxRetries status : Nat) (ra : Option Int) (b : String),
      400 ≤ status → status < 500 → status ≠ 429 →
      request maxRetries (fun _ => .response status ra b) =
        (1, .error (.clientError status b))) ∧
    (∀ (maxRetries : Nat) (m : String),
      request maxRetries (fun _ => .timeoutError m) =
        (maxRetries + 1, .error (.exhausted (some m)))) ∧
    request 0 (fun _ => .response 429 (some 30) "Too many requests") =
      (1, .error (.rateLimited 30)) ∧
    request 1 (fun _ => .response 500 none "Internal Server Error") =
      (2, .error (.serverError 500 "Internal Server Error")) := by
  refine ⟨fun mr o =>
      (requestGo_attempts_le o mr (mr + 1) 0 1 none).trans (by omega),
    fun mr ra b =>
      requestGo_const_429 mr ra b (mr + 1) 0 1 none (by omega) (by omega),
    fun mr s ra b hs =>
      requestGo_const_server mr s ra b hs (mr + 1) 0 1 none (by omega)
        (by omega),
    fun mr s ra b h4 h5 hne => ?_,
    fun mr m =>
      requestGo_const_timeout mr m (mr + 1) 0 1 none (by omega) (by omega),
    rfl, rfl⟩
  show requestGo _ mr (mr + 1) 0 1 none = _
  simp only [requestGo]
  rw [if_neg hne, if_neg (by omega : ¬ 500 ≤ s), if_pos h4]

/-- Witness for C2: the 4xx case raises after one attempt for a
concrete maxRetries, and timeouts exhaust all attempts (matching the
repository's own retry tests). -/
theorem request_retry_policy_witness :
    request 2 (fun _ => .response 404 none "Not Found") =
      (1, .error (.clientError 404 "Not Found")) ∧
    request 2 (fun _ => .timeoutError "Timeout") =
      (3, .error (.exhausted (some "Timeout"))) :=
  ⟨request_retry_policy.2.2.2.1 2 404 none "Not Found" (by decide)
      (by decide) (by decide),
    request_retry_policy.2.2.2.2.1 2 "Timeout"⟩

/-- C9: in `identify_dimensions`, a later dimension matching the same
role vocabulary overwrites an earlier assignment, so the time role is
taken from the *last* time-vocabulary match in dimension order; in
particular a dataset with a `Vuosi` (year) dimension followed by a
`Kuukausi` (month) dimension — both in the time vocabulary — takes its
time dimension from `Kuukausi`. -/
theorem identify_dimensions_last_match_wins :
    (∀ dims : List StatFinParsedDimension,
      (identify_dimensions dims).timeDimension =
        ((dims.filter fun d => vocabMatches TIME_DIMENSION_NAMES d).map
          fun d => d.id).getLast?) ∧
    identify_dimensions
      [⟨"Vuosi", "Vuosi", []⟩, ⟨"Kuukausi", "Kuukausi", []⟩] =
      ⟨some "Kuukausi", none, none, none⟩ := by
  constructor
  · intro dims
    rw [identify_dimensions, foldl_identifyStep_time, optOr_none_right]
  · decide

/-- C10's claim as stated is false: it quantifies over every dataset
whose sizes list is at least as long as its dimensions list, but for
`sizes = [2, 0]` with one value the divisor for the first dimension is
`0` and `_index_to_coordinates` raises `ZeroDivisionError` instead of
producing a data point per value. -/
theorem get_data_points_zero_size_counterexample :
    zeroSizeDataset.dimensions.length ≤ zeroSizeDataset.sizes.length ∧
    getDataPoints zeroSizeDataset = none := by decide

/-- C10 (amended with positive sizes): for every dataset with positive
sizes and at least as many sizes as dimensions, `get_data_points`
returns exactly one data point per value entry; `get_category_by_index`
returns `None` for every out-of-range index; and on a concrete dataset
whose flat index 1 decodes to a coordinate with no category, that
dimension is silently omitted from the point's coordinate and label
maps. -/
theorem get_data_points_guarded_category_lookup :
    (∀ d : StatFinDataset, (∀ s ∈ d.sizes, 0 < s) →
      d.dimensions.length ≤ d.sizes.length →
      ∃ pts, getDataPoints d = some pts ∧ pts.length = d.values.length) ∧
    (∀ (dim : StatFinParsedDimension) (idx : Nat),
      dim.categories.length ≤ idx → getCategoryByIndex dim idx = none) ∧
    getDataPoints oobDataset =
      some [⟨some 1, [("A", "a0")], [("A", "A0")]⟩, ⟨some 2, [], []⟩] := by
  refine ⟨fun d hpos hlen => dataPointsGo_total hpos hlen d.values 0,
    fun dim idx h => ?_, by decide⟩
  simp [getCategoryByIndex, Nat.not_lt.mpr h]

/-- Witness for the amended C10 theorem at a concrete dataset. -/
theorem get_data_points_guarded_category_lookup_witness :
    ∃ pts, getDataPoints oobDataset = some pts ∧
      pts.length = oobDataset.values.length :=
  get_data_points_guarded_category_lookup.1 oobDataset (by decide)
    (by decide)

/-- C8: `parse_jsonstat` succeeds exactly when the required top-level
fields `id`, `dimension` and `value` are all present; any failure
carries the malformed-cube message; every dimension of a decode result
was found in the `dimension` map, so a declared-but-absent dimension is
skipped rather than aborting; and on a concrete cube declaring `A` and
`B` with only `A` defined, the decode succeeds with just `A`. -/
theorem parse_jsonstat_required_fields_and_skip :
    (∀ r : RawCube,
      (∃ d, parse_jsonstat r = .ok d) ↔
        (r.id ≠ none ∧ r.dimension ≠ none ∧ r.value ≠ none)) ∧
    (∀ (r : RawCube) (e : String), parse_jsonstat r = .error e →
      e = "Invalid JSON-stat response: missing required fields (id, dimension, value)") ∧
    (∀ (r : RawCube) (d : StatFinDataset) (dimId : String),
      parse_jsonstat r = .ok d →
      dimId ∈ d.dimensions.map (fun dim => dim.id) →
      ∃ rawDims, r.dimension = some rawDims ∧
        lookupRaw rawDims dimId ≠ none) ∧
    parse_jsonstat skipCube = .ok skipDataset ∧
    skipDataset.dimensions.map (fun dim => dim.id) = ["A"] := by
  refine ⟨fun r => ?_, fun r e he => ?_, fun r d dimId hok hmem => ?_,
    rfl, by decide⟩
  · obtain ⟨id, size, dim, val, label, src, upd⟩ := r
    cases id <;> cases dim <;> cases val <;> simp [parse_jsonstat]
  · obtain ⟨id, size, dim, val, label, src, upd⟩ := r
    cases id <;> cases dim <;> cases val <;>
      simp only [parse_jsonstat] at he <;>
      first
        | (injection he with h; exact h.symm)
        | exact Except.noConfusion he
  · obtain ⟨id, size, dim, val, label, src, upd⟩ := r
    cases hid : id with
    | none => rw [hid] at hok; exact Except.noConfusion hok
    | some ids =>
        cases hdim : dim with
        | none =>
            rw [hid, hdim] at hok
            exact Except.noConfusion hok
        | some rawDims =>
            cases hval : val with
            | none =>
                rw [hid, hdim, hval] at hok
                exact Except.noConfusion hok
            | some vals =>
                rw [hid, hdim, hval] at hok
                simp only [parse_jsonstat] at hok
                injection hok with h
                subst h
                refine ⟨rawDims, rfl, ?_⟩
                simp only [List.mem_map] at hmem
                obtain ⟨pdim, hdmem, hdid⟩ := hmem
                rw [List.mem_filterMap] at hdmem
                obtain ⟨a, _, hpa⟩ := hdmem
                unfold parseDimension at hpa
                cases hl : lookupRaw rawDims a with
                | none =>
                    rw [hl] at hpa
                    exact Option.noConfusion hpa
                | some dd =>
                    rw [hl, Option.map_some'] at hpa
                    injection hpa with h
                    have hdid' : pdim.id = a := by rw [← h]
                    rw [← hdid, hdid', hl]
                    simp

/-- Witness for C8 at the concrete cube: the only decoded dimension id,
`"A"`, really is defined in the raw `dimension` map. -/
theorem parse_jsonstat_required_fields_and_skip_witness :
    ∃ rawDims, skipCube.dimension = some rawDims ∧
      lookupRaw rawDims "A" ≠ none :=
  parse_jsonstat_required_fields_and_skip.2.2.1 skipCube skipDataset "A"
    rfl (by decide)

/-- C3: the claim is violated on the failure path.  `_do_fetch` does
set the in-session fetch status to `"failed"` (with the error message
and the recomputed next fetch time), but `fetch_dataset` then calls
`session.rollback()` because the result was not successful, which
discards those uncommitted changes — so the *persisted* fetch-status
row is unchanged after a failed fetch (here: still `"pending"` with no
`next_fetch_at`).  The success path persists the claimed update:
status `"success"`, incremented counter, cleared error, and
`next_fetch_at = now + interval`. -/
theorem failed_fetch_status_not_persisted :
    (fetch_dataset 1000 "ds" [] [] serverFailResp db0).1.success = false ∧
    (fetch_dataset 1000 "ds" [] [] serverFailResp db0).1.errorMessage =
      some "API error: StatFin API error (500): Server error" ∧
    (fetch_dataset 1000 "ds" [] [] serverFailResp db0).2 = db0 ∧
    cfg0.lastFetchStatus = "pending" ∧
    cfg0.nextFetchAt = none ∧
    (do_fetch 1000 "ds" [] [] serverFailResp db0).2.fetchConfig =
      some
        { lastFetchStatus := "failed", lastFetchAt := none,
          lastErrorMessage :=
            some "API error: StatFin API error (500): Server error",
          nextFetchAt := some 87400, fetchCount := 0,
          fetchIntervalHours := 24, updatedAt := some 1000 } ∧
    (fetch_dataset 1000 "ds" [] [] (.ok okCube) db0).2.fetchConfig =
      some
        { lastFetchStatus := "success", lastFetchAt := some 1000,
          lastErrorMessage := none, nextFetchAt := some 87400,
          fetchCount := 1, fetchIntervalHours := 24,
          updatedAt := some 1000 } :=
  ⟨by decide, by decide, by decide, by decide, by decide, by decide,
    by decide⟩

/-- C4: a fetch never partially commits.  On failure the persisted
statistics are exactly as before the fetch; on success they are the
previous rows plus the full stored batch derived from the normalized
records of the decoded cube. -/
theorem fetch_commits_all_or_nothing (now : Int) (datasetId : String)
    (vr vi : List String) (resp : Except RequestError RawCube)
    (db : SessionState) :
    ((fetch_dataset now datasetId vr vi resp db).1.success = false →
      (fetch_dataset now datasetId vr vi resp db).2.statistics =
        db.statistics) ∧
    ((fetch_dataset now datasetId vr vi resp db).1.success = true →
      ∃ raw ds records, resp = .ok raw ∧ parse_jsonstat raw = .ok ds ∧
        normalize_records ds = some records ∧
        (fetch_dataset now datasetId vr vi resp db).2.statistics =
          db.statistics ++
            (store_records datasetId vr vi now records).1) := by
  rcases resp with e | raw
  · exact ⟨fun _ => rfl, fun hs => Bool.noConfusion hs⟩
  · cases hparse : parse_jsonstat raw with
    | error m =>
        constructor
        · intro _
          simp [fetch_dataset, do_fetch, hparse]
        · intro hs
          simp [fetch_dataset, do_fetch, hparse] at hs
    | ok ds =>
        cases hnorm : normalize_records ds with
        | none =>
            constructor
            · intro _
              simp [fetch_dataset, do_fetch, hparse, hnorm]
            · intro hs
              simp [fetch_dataset, do_fetch, hparse, hnorm] at hs
        | some records =>
            constructor
            · intro hs
              simp [fetch_dataset, do_fetch, hparse, hnorm] at hs
            · intro _
              refine ⟨raw, ds, records, rfl, hparse, hnorm, ?_⟩
              simp [fetch_dataset, do_fetch, hparse, hnorm, touchStatus]

/-- Witness for C4: at a concrete failed fetch the statistics table is
unchanged. -/
theorem fetch_commits_all_or_nothing_witness :
    (fetch_dataset 1000 "ds" [] [] serverFailResp db0).2.statistics =
      db0.statistics :=
  (fetch_commits_all_or_nothing 1000 "ds" [] [] serverFailResp db0).1
    rfl

/-- C7: normalization does NOT keep months in `[1, 12]`: the time code
`"2023M13"` matches `YEAR_MONTH_PATTERN` (`\d{1,2}` is unbounded in
value), so the normalizer emits a record with `month = 13`. -/
theorem normalizer_emits_out_of_range_month :
    normalize_records monthCube =
      some [⟨2023, none, some 13, none, none, some 5, none, none⟩] ∧
    ¬ 13 ≤ 12 := by decide

end GeoInfo
